import Mathlib

/-!
Verification of the FunnelKVS-CPP ring subsystem against its specification.

The C++ sources are embedded shallowly: pure functions become Lean functions,
stateful methods become explicit state transformers, and network calls become
oracle parameters (a function or value supplied by the environment describing
the outcome of the remote operation).  Machine integers are modelled as `Nat`
(respectively `Int` where the C++ code computes with signed `int`), with
explicit `% 2 ^ w` reductions exactly where the C++ code truncates.

Source files embedded here:
  * `src/hash.cpp`           : `in_range` (ring-interval predicate)
  * `src/chord.cpp`          : `ChordNode` routing state and data operations
                               (the newest variant of the file, the one that
                               rolls back a failed synchronous replication and
                               transfers keys on a predecessor change)
  * `src/replication.cpp`    : `ReplicationManager`, `FailureDetector`
  * `src/protocol.cpp`       : wire codec
  * `src/chord_server.cpp`   : request dispatch for GET/PUT/DELETE
-/

namespace FunnelKVS

/-! ## Identifier space

`Hash160` in the C++ code is `std::array<uint8_t, 20>`, compared with
`memcmp`, i.e. lexicographically, which coincides with the order of the
big-endian 160-bit unsigned integer the bytes denote.  We model an identifier
as the `Nat` it denotes; every genuine identifier is `< 2 ^ 160`. -/

def ID_SPACE : Nat := 2 ^ 160

/-- Ring-interval predicate `in_range` from `src/hash.cpp`:
`(start == end)` gives the empty interval unless inclusive and `id == start`;
`(start < end)` is the ordinary interval; `(start > end)` wraps past zero. -/
def in_range (id start stop : Nat) (inclusive_end : Bool) : Bool :=
  if start = stop then
    inclusive_end && decide (id = start)
  else if start < stop then
    decide (start < id) && (if inclusive_end then decide (id ≤ stop) else decide (id < stop))
  else
    decide (start < id) || (if inclusive_end then decide (id ≤ stop) else decide (id < stop))

/-- Clockwise distance from `a` to `x` on a ring of `m` points.  This is the
specification-side notion used to state what "x lies strictly after a walking
clockwise" means; it is not part of the C++ code. -/
def cwDist (m a x : Nat) : Nat :=
  if a ≤ x then x - a else x + m - a

/-- Clockwise distance on the 160-bit identifier ring. -/
def specClockwiseDist (a x : Nat) : Nat := cwDist ID_SPACE a x

/-- Peer descriptor `NodeInfo` from `src/chord.h`.  Equality of peers in the
C++ code (`operator==`) compares only the `id` field. -/
structure NodeInfo where
  id : Nat
  address : String
  port : Nat
deriving DecidableEq, Repr

/-- NodeInfo equality as implemented by `NodeInfo::operator==`: by id only. -/
def nodeEq (a b : NodeInfo) : Bool := decide (a.id = b.id)

/-- Responsibility test `ChordNode::is_responsible_for_key` from
`src/chord.cpp`: with no predecessor the node owns everything, otherwise the
key must lie in `(predecessor.id, self.id]`. -/
def is_responsible_for_key (predecessor : Option NodeInfo) (self_info : NodeInfo)
    (key_id : Nat) : Bool :=
  match predecessor with
  | none => true
  | some p => in_range key_id p.id self_info.id true

/-! ### Arithmetic characterization of `in_range` -/

/-- Helper: the boolean `in_range` unfolded to a propositional case split. -/
theorem in_range_eq_prop (x a b : Nat) (inc : Bool) :
    (in_range x a b inc = true) ↔
      (if a = b then inc = true ∧ x = a
       else if a < b then a < x ∧ (if inc = true then x ≤ b else x < b)
       else a < x ∨ (if inc = true then x ≤ b else x < b)) := by
  unfold in_range
  cases inc <;> split_ifs <;> simp_all

/-- Helper: on a ring of `m` points, `in_range` agrees with the clockwise
walk description, for identifiers below `m`. -/
theorem in_range_cwDist_char (m x a b : Nat) (inc : Bool)
    (hx : x < m) (ha : a < m) (hb : b < m) :
    (a = b → (in_range x a b inc = true ↔ inc = true ∧ x = a)) ∧
    (a ≠ b → (in_range x a b inc = true ↔
      0 < cwDist m a x ∧
        (if inc = true then cwDist m a x ≤ cwDist m a b
         else cwDist m a x < cwDist m a b))) := by
  constructor
  · intro hab
    rw [in_range_eq_prop, if_pos hab]
  · intro hab
    rw [in_range_eq_prop, if_neg hab]
    unfold cwDist
    cases inc <;> split_ifs <;> omega

/-- C2: `in_range(x, a, b, inclusive_right)` returns true iff x lies strictly
after a walking clockwise and, per the flag, up to and including b or strictly
before b; when `a == b` the interval is empty unless inclusive and `x == a`;
when `a > b` it wraps: true iff `x > a` or `x ≤ b` (resp. `x < b`). -/
theorem in_range_clockwise_spec (x a b : Nat) (inc : Bool)
    (hx : x < ID_SPACE) (ha : a < ID_SPACE) (hb : b < ID_SPACE) :
    (a = b → (in_range x a b inc = true ↔ inc = true ∧ x = a)) ∧
    (a ≠ b → (in_range x a b inc = true ↔
      0 < specClockwiseDist a x ∧
        (if inc = true then specClockwiseDist a x ≤ specClockwiseDist a b
         else specClockwiseDist a x < specClockwiseDist a b))) ∧
    (b < a → (in_range x a b inc = true ↔
      (a < x ∨ (if inc = true then x ≤ b else x < b)))) := by
  refine ⟨(in_range_cwDist_char ID_SPACE x a b inc hx ha hb).1,
          (in_range_cwDist_char ID_SPACE x a b inc hx ha hb).2, ?_⟩
  intro hba
  rw [in_range_eq_prop, if_neg (by omega : ¬ a = b), if_neg (by omega : ¬ a < b)]

/-- Witness for C2 at a wrap-around instance: a = 300, b = 5, x = 2. -/
theorem in_range_clockwise_spec_witness :
    (2 : Nat) < ID_SPACE ∧ (300 : Nat) < ID_SPACE ∧ (5 : Nat) < ID_SPACE ∧
    (((300 : Nat) ≠ 5 → (in_range 2 300 5 true = true ↔
      0 < specClockwiseDist 300 2 ∧
        (if true = true then specClockwiseDist 300 2 ≤ specClockwiseDist 300 5
         else specClockwiseDist 300 2 < specClockwiseDist 300 5))) ∧
     ((5 : Nat) < 300 → (in_range 2 300 5 true = true ↔
      (300 < 2 ∨ (if true = true then 2 ≤ 5 else 2 < 5))))) := by
  have h1 : (2 : Nat) < ID_SPACE := by norm_num [ID_SPACE]
  have h2 : (300 : Nat) < ID_SPACE := by norm_num [ID_SPACE]
  have h3 : (5 : Nat) < ID_SPACE := by norm_num [ID_SPACE]
  have h := in_range_clockwise_spec 2 300 5 true h1 h2 h3
  exact ⟨h1, h2, h3, h.2.1, h.2.2⟩

/-- C1: `is_responsible_for_key(k)` is true when the predecessor is unknown;
otherwise it is exactly `in_range(k, predecessor.id, self.id, true)`; and in
the wrap-around case `predecessor.id > self.id` it is true iff k lies in
`(predecessor.id, 2^160) ∪ [0, self.id]`. -/
theorem is_responsible_for_key_spec (k : Nat) (p s : NodeInfo)
    (hk : k < ID_SPACE) (_hp : p.id < ID_SPACE) (_hs : s.id < ID_SPACE) :
    is_responsible_for_key none s k = true ∧
    is_responsible_for_key (some p) s k = in_range k p.id s.id true ∧
    (s.id < p.id → (is_responsible_for_key (some p) s k = true ↔
      ((p.id < k ∧ k < ID_SPACE) ∨ k ≤ s.id))) := by
  refine ⟨rfl, rfl, ?_⟩
  intro hwrap
  simp only [is_responsible_for_key, in_range, if_neg (by omega : ¬ p.id = s.id),
    if_neg (by omega : ¬ p.id < s.id), Bool.or_eq_true, decide_eq_true_eq, if_true]
  constructor
  · rintro (h | h)
    · exact Or.inl ⟨h, hk⟩
    · exact Or.inr h
  · rintro (⟨h, _⟩ | h)
    · exact Or.inl h
    · exact Or.inr h

/-- Witness for C1 at a wrap-around ring: predecessor id 900, self id 10,
key id 5 (owned) — all bounds discharged concretely. -/
theorem is_responsible_for_key_spec_witness :
    (5 : Nat) < ID_SPACE ∧ (900 : Nat) < ID_SPACE ∧ (10 : Nat) < ID_SPACE ∧
    (is_responsible_for_key none ⟨10, "127.0.0.1", 8001⟩ 5 = true ∧
     is_responsible_for_key (some ⟨900, "127.0.0.1", 8002⟩) ⟨10, "127.0.0.1", 8001⟩ 5 =
       in_range 5 900 10 true ∧
     ((10 : Nat) < 900 → (is_responsible_for_key (some ⟨900, "127.0.0.1", 8002⟩)
         ⟨10, "127.0.0.1", 8001⟩ 5 = true ↔ ((900 < 5 ∧ 5 < ID_SPACE) ∨ 5 ≤ 10)))) := by
  have h1 : (5 : Nat) < ID_SPACE := by norm_num [ID_SPACE]
  have h2 : (900 : Nat) < ID_SPACE := by norm_num [ID_SPACE]
  have h3 : (10 : Nat) < ID_SPACE := by norm_num [ID_SPACE]
  exact ⟨h1, h2, h3,
    is_responsible_for_key_spec 5 ⟨900, "127.0.0.1", 8002⟩ ⟨10, "127.0.0.1", 8001⟩ h1 h2 h3⟩

/-! ## Wire codec (`src/protocol.cpp`)

Bytes are modelled as `Nat`; every byte the code writes is reduced mod 256
exactly where the C++ code stores into a `uint8_t`, and the `size_t` lengths
are reduced mod `2 ^ 32` exactly at the `static_cast<uint32_t>` in
`encodeRequest` / `encodeResponse`. -/

/-- Big-endian serialization of a `uint32` value, `Protocol::writeUint32`. -/
def writeUint32 (value : Nat) : List Nat :=
  [value / 2 ^ 24 % 256, value / 2 ^ 16 % 256, value / 2 ^ 8 % 256, value % 256]

/-- Big-endian read of a `uint32`, `Protocol::readUint32`: fails when fewer
than 4 bytes remain, otherwise yields the value and the remaining suffix.
The C++ code ors shifted `uint8_t` bytes, which equals this sum. -/
def readUint32 : List Nat → Option (Nat × List Nat)
  | b0 :: b1 :: b2 :: b3 :: rest =>
      some (b0 * 2 ^ 24 + b1 * 2 ^ 16 + b2 * 2 ^ 8 + b3, rest)
  | _ => none

/-- Client-protocol request frame (`struct Request` in `src/protocol.h`).
The opcode is a `uint8_t`-backed enum, modelled by its numeric value. -/
structure Request where
  opcode : Nat
  key : List Nat
  value : List Nat
deriving DecidableEq, Repr

/-- Client-protocol response frame (`struct Response` in `src/protocol.h`). -/
structure Response where
  status : Nat
  value : List Nat
deriving DecidableEq, Repr

/-- Frame serializer `Protocol::encodeRequest`:
`OpCode(1) | KeyLen(4) | Key | ValueLen(4) | Value`. -/
def encodeRequest (req : Request) : List Nat :=
  req.opcode % 256 ::
    (writeUint32 (req.key.length % 2 ^ 32) ++ req.key ++
     writeUint32 (req.value.length % 2 ^ 32) ++ req.value)

/-- Frame parser `Protocol::decodeRequest`: checks every length bound before
reading, returns `none` on any shortfall. -/
def decodeRequest (data : List Nat) : Option Request :=
  match data with
  | [] => none
  | op :: rest =>
    match readUint32 rest with
    | none => none
    | some (keyLen, rest1) =>
      if keyLen ≤ rest1.length then
        match readUint32 (rest1.drop keyLen) with
        | none => none
        | some (valueLen, rest2) =>
          if valueLen ≤ rest2.length then
            some ⟨op, rest1.take keyLen, rest2.take valueLen⟩
          else none
      else none

/-- Frame serializer `Protocol::encodeResponse`: `Status(1) | ValueLen(4) | Value`. -/
def encodeResponse (resp : Response) : List Nat :=
  resp.status % 256 :: (writeUint32 (resp.value.length % 2 ^ 32) ++ resp.value)

/-- Frame parser `Protocol::decodeResponse`. -/
def decodeResponse (data : List Nat) : Option Response :=
  match data with
  | [] => none
  | st :: rest =>
    match readUint32 rest with
    | none => none
    | some (valueLen, rest1) =>
      if valueLen ≤ rest1.length then some ⟨st, rest1.take valueLen⟩
      else none

/-- Helper: reading back a just-written uint32 recovers the value and suffix. -/
theorem readUint32_writeUint32 (v : Nat) (tail : List Nat) (hv : v < 2 ^ 32) :
    readUint32 (writeUint32 v ++ tail) = some (v, tail) := by
  simp only [writeUint32, List.cons_append, List.nil_append, readUint32]
  congr 2
  omega

/-- Helper: a request with empty key whose value length is a multiple of
`2 ^ 32` decodes back with an empty value, because the encoder truncated the
declared length.  Stated for an abstract value list so the proof never
evaluates it. -/
theorem decode_encode_truncated (op : Nat) (hop : op < 256) (r : List Nat)
    (hr : r.length % 2 ^ 32 = 0) :
    decodeRequest (encodeRequest ⟨op, [], r⟩) = some ⟨op, [], []⟩ := by
  have hw : writeUint32 0 = [0, 0, 0, 0] := rfl
  have henc : encodeRequest ⟨op, [], r⟩ =
      op :: (0 :: 0 :: 0 :: 0 :: (0 :: 0 :: 0 :: 0 :: r)) := by
    simp only [encodeRequest, List.length_nil, Nat.zero_mod, hr, hw,
      Nat.mod_eq_of_lt hop, List.nil_append, List.append_nil, List.cons_append]
  rw [henc]
  simp only [decodeRequest, readUint32, Nat.zero_mul, Nat.add_zero, Nat.zero_add,
    List.drop_zero, List.take_zero, Nat.zero_le, if_pos]

/-- C9 counterexample: the round-trip claim quantifies over every byte
string, but `encodeRequest` truncates lengths to 32 bits, so a value of
`2 ^ 32` bytes decodes back to the empty value. -/
theorem protocol_roundtrip_cex :
    decodeRequest (encodeRequest ⟨2, [], List.replicate (2 ^ 32) 0⟩) ≠
      some ⟨2, [], List.replicate (2 ^ 32) 0⟩ := by
  have hr : (List.replicate (2 ^ 32) (0 : Nat)).length % 2 ^ 32 = 0 := by
    rw [List.length_replicate]
    exact Nat.mod_self _
  rw [decode_encode_truncated 2 (by norm_num) _ hr]
  intro h
  have h1 : ([] : List Nat) = List.replicate (2 ^ 32) 0 := by
    have h0 := Option.some.inj h
    exact congrArg Request.value h0
  have h2 : (0 : Nat) = 2 ^ 32 := by
    have := congrArg List.length h1
    rwa [List.length_nil, List.length_replicate] at this
  norm_num at h2

/-- C9 (amended): the codec round-trips every frame whose key and value are
shorter than `2 ^ 32` bytes (the opcode and status are `uint8_t`-backed
enums, hence below 256). -/
theorem protocol_roundtrip (op st : Nat) (k v : List Nat)
    (hop : op < 256) (hst : st < 256)
    (hk : k.length < 2 ^ 32) (hv : v.length < 2 ^ 32) :
    decodeRequest (encodeRequest ⟨op, k, v⟩) = some ⟨op, k, v⟩ ∧
    decodeResponse (encodeResponse ⟨st, v⟩) = some ⟨st, v⟩ := by
  constructor
  · simp only [encodeRequest, Nat.mod_eq_of_lt hop, Nat.mod_eq_of_lt hk,
      Nat.mod_eq_of_lt hv, decodeRequest, List.append_assoc]
    rw [readUint32_writeUint32 k.length _ hk]
    dsimp only
    rw [if_pos (by simp), List.take_left, List.drop_left,
      readUint32_writeUint32 v.length _ hv]
    dsimp only
    rw [if_pos le_rfl, List.take_length]
  · simp only [encodeResponse, Nat.mod_eq_of_lt hst, Nat.mod_eq_of_lt hv,
      decodeResponse]
    rw [readUint32_writeUint32 v.length _ hv]
    dsimp only
    rw [if_pos le_rfl, List.take_length]

/-- Witness for C9 at a concrete PUT frame. -/
theorem protocol_roundtrip_witness :
    (2 : Nat) < 256 ∧ (0 : Nat) < 256 ∧
    ([107, 101, 121] : List Nat).length < 2 ^ 32 ∧
    ([104, 105] : List Nat).length < 2 ^ 32 ∧
    (decodeRequest (encodeRequest ⟨2, [107, 101, 121], [104, 105]⟩) =
       some ⟨2, [107, 101, 121], [104, 105]⟩ ∧
     decodeResponse (encodeResponse ⟨0, [104, 105]⟩) = some ⟨0, [104, 105]⟩) := by
  refine ⟨by norm_num, by norm_num, by norm_num, by norm_num, ?_⟩
  exact protocol_roundtrip 2 0 [107, 101, 121] [104, 105]
    (by norm_num) (by norm_num) (by norm_num) (by norm_num)

/-- Key length declared in a request frame header (0 if the header is short). -/
def declaredKeyLen (data : List Nat) : Nat :=
  match readUint32 (data.drop 1) with
  | some (n, _) => n
  | none => 0

/-- Value length declared in a request frame after its key (0 if short). -/
def declaredReqValueLen (data : List Nat) : Nat :=
  match readUint32 (data.drop (5 + declaredKeyLen data)) with
  | some (n, _) => n
  | none => 0

/-- Value length declared in a response frame header (0 if short). -/
def declaredRespValueLen (data : List Nat) : Nat :=
  match readUint32 (data.drop 1) with
  | some (n, _) => n
  | none => 0

/-- C10: the decoders are total and bounds-checked: they succeed exactly when
the buffer holds the complete declared frame — `1 + 4 + KeyLen + 4 + ValueLen`
bytes for a request, `1 + 4 + ValueLen` for a response — and fail on an empty
buffer, a truncated header, or a declared length passing the end. -/
theorem decode_bounds_spec (data : List Nat) :
    ((decodeRequest data).isSome = true ↔
      9 + declaredKeyLen data + declaredReqValueLen data ≤ data.length) ∧
    ((decodeResponse data).isSome = true ↔
      5 + declaredRespValueLen data ≤ data.length) := by
  constructor
  · rcases data with _ | ⟨op, _ | ⟨b0, _ | ⟨b1, _ | ⟨b2, _ | ⟨b3, rest1⟩⟩⟩⟩⟩
    · simp [decodeRequest, declaredKeyLen, declaredReqValueLen, readUint32]
    · simp [decodeRequest, declaredKeyLen, declaredReqValueLen, readUint32]
    · simp [decodeRequest, declaredKeyLen, declaredReqValueLen, readUint32]
    · simp [decodeRequest, declaredKeyLen, declaredReqValueLen, readUint32]
    · simp [decodeRequest, declaredKeyLen, declaredReqValueLen, readUint32]
    · have hdk : declaredKeyLen (op :: b0 :: b1 :: b2 :: b3 :: rest1) =
          b0 * 2 ^ 24 + b1 * 2 ^ 16 + b2 * 2 ^ 8 + b3 := by
        simp [declaredKeyLen, readUint32]
      set kl := b0 * 2 ^ 24 + b1 * 2 ^ 16 + b2 * 2 ^ 8 + b3 with hkl
      have hdrop : List.drop (5 + kl) (op :: b0 :: b1 :: b2 :: b3 :: rest1) =
          List.drop kl rest1 := by
        rw [Nat.add_comm 5 kl, ← List.drop_drop]
        simp
      have hdv : declaredReqValueLen (op :: b0 :: b1 :: b2 :: b3 :: rest1) =
          (match readUint32 (List.drop kl rest1) with
           | some (n, _) => n
           | none => 0) := by
        rw [declaredReqValueLen, hdk, hdrop]
      simp only [decodeRequest, readUint32, hdk, hdv, List.length_cons]
      by_cases hle : kl ≤ rest1.length
      · rw [if_pos hle]
        have hdlen : (rest1.drop kl).length = rest1.length - kl :=
          List.length_drop kl rest1
        rcases hl2 : rest1.drop kl with _ | ⟨c0, _ | ⟨c1, _ | ⟨c2, _ | ⟨c3, rest2⟩⟩⟩⟩ <;>
            rw [hl2] at hdlen <;>
            simp only [readUint32, Option.isSome_none, Option.isSome_some,
              Bool.false_eq_true, false_iff, List.length_nil, List.length_cons,
              not_le] at hdlen ⊢
        · omega
        · omega
        · omega
        · omega
        · set vl := c0 * 2 ^ 24 + c1 * 2 ^ 16 + c2 * 2 ^ 8 + c3 with hvl
          by_cases hvle : vl ≤ rest2.length
          · rw [if_pos hvle]
            simp only [Option.isSome_some, true_iff]
            omega
          · rw [if_neg hvle]
            simp only [Option.isSome_none, Bool.false_eq_true, false_iff, not_le]
            omega
      · rw [if_neg hle]
        simp only [Option.isSome_none, Bool.false_eq_true, false_iff, not_le]
        omega
  · rcases data with _ | ⟨st, _ | ⟨b0, _ | ⟨b1, _ | ⟨b2, _ | ⟨b3, rest1⟩⟩⟩⟩⟩
    · simp [decodeResponse, declaredRespValueLen, readUint32]
    · simp [decodeResponse, declaredRespValueLen, readUint32]
    · simp [decodeResponse, declaredRespValueLen, readUint32]
    · simp [decodeResponse, declaredRespValueLen, readUint32]
    · simp [decodeResponse, declaredRespValueLen, readUint32]
    · simp only [decodeResponse, readUint32, declaredRespValueLen,
        List.drop_succ_cons, List.drop_zero, List.length_cons]
      set vl := b0 * 2 ^ 24 + b1 * 2 ^ 16 + b2 * 2 ^ 8 + b3 with hvl
      by_cases hvle : vl ≤ rest1.length
      · rw [if_pos hvle]
        simp only [Option.isSome_some, true_iff]
        omega
      · rw [if_neg hvle]
        simp only [Option.isSome_none, Bool.false_eq_true, false_iff, not_le]
        omega

/-! ## Replication engine (`src/replication.cpp`)

`ReplicationManager::replicate_put` / `replicate_delete`.  The network send
(`send_replication_request`) is an oracle `send : NodeInfo → Bool` giving the
outcome of the remote write of the current key/value at each peer.  The
replication factor is C++ `int`, so the `factor - 1` arithmetic is on `Int`. -/

/-- Configuration subset of `ReplicationManager::ReplicationConfig` that the
synchronous path reads (`replication.h` defaults: factor 3, synchronous). -/
structure ReplicationConfig where
  replication_factor : Int
  enable_async_replication : Bool
deriving DecidableEq, Repr

/-- Default `ReplicationConfig()` from `replication.h`. -/
def defaultReplicationConfig : ReplicationConfig := ⟨3, false⟩

/-- Loop body of the synchronous replication path: walk the first
`required` replica slots, skip a null pointer or a port-0 peer without
attempting it, count the successful sends. -/
def countSyncSuccesses (send : NodeInfo → Bool) : List (Option NodeInfo) → Nat
  | [] => 0
  | none :: rest => countSyncSuccesses send rest
  | some n :: rest =>
      if n.port = 0 then countSyncSuccesses send rest
      else (if send n then 1 else 0) + countSyncSuccesses send rest

/-- Number of remote writes the synchronous path schedules:
`min(config.replication_factor - 1, (int)replicas.size())`. -/
def requiredReplications (factor : Int) (replicas : List (Option NodeInfo)) : Int :=
  min (factor - 1) (replicas.length : Int)

/-- `ReplicationManager::replicate_put` (the value/key arguments do not
influence control flow; `send` is the outcome oracle of
`send_replication_request(replicas[i], "PUT", key, value)`).  In asynchronous
mode the task is enqueued and the call returns success immediately. -/
def replicate_put (cfg : ReplicationConfig) (_key : String) (_value : List Nat)
    (replicas : List (Option NodeInfo)) (send : NodeInfo → Bool) : Bool :=
  if cfg.enable_async_replication then true
  else
    let required := requiredReplications cfg.replication_factor replicas
    let successful := countSyncSuccesses send (replicas.take required.toNat)
    decide ((successful : Int) = required)

/-- `ReplicationManager::replicate_delete`: identical control flow with the
DELETE request oracle. -/
def replicate_delete (cfg : ReplicationConfig) (_key : String)
    (replicas : List (Option NodeInfo)) (send : NodeInfo → Bool) : Bool :=
  if cfg.enable_async_replication then true
  else
    let required := requiredReplications cfg.replication_factor replicas
    let successful := countSyncSuccesses send (replicas.take required.toNat)
    decide ((successful : Int) = required)

/-- Claim-side reading of C4: every attempted remote write succeeded, where a
null replica or one with port 0 is skipped rather than attempted. -/
def attemptedWritesAllSucceed (cfg : ReplicationConfig)
    (replicas : List (Option NodeInfo)) (send : NodeInfo → Bool) : Prop :=
  ∀ r ∈ replicas.take (requiredReplications cfg.replication_factor replicas).toNat,
    ∀ n, r = some n → n.port ≠ 0 → send n = true

/-- Helper: the success count is bounded by the number of scanned slots. -/
theorem countSyncSuccesses_le (send : NodeInfo → Bool) (l : List (Option NodeInfo)) :
    countSyncSuccesses send l ≤ l.length := by
  induction l with
  | nil => simp [countSyncSuccesses]
  | cons r rest ih =>
    cases r with
    | none =>
      simp only [countSyncSuccesses, List.length_cons]
      omega
    | some n =>
      simp only [countSyncSuccesses, List.length_cons]
      split_ifs <;> omega

/-- Helper: the count equals the slot number iff every scanned slot is a
non-null, nonzero-port peer whose send succeeded. -/
theorem countSyncSuccesses_eq_length_iff (send : NodeInfo → Bool)
    (l : List (Option NodeInfo)) :
    countSyncSuccesses send l = l.length ↔
      ∀ r ∈ l, ∃ n, r = some n ∧ n.port ≠ 0 ∧ send n = true := by
  induction l with
  | nil => simp [countSyncSuccesses]
  | cons r rest ih =>
    cases r with
    | none =>
      simp only [countSyncSuccesses, List.length_cons, List.mem_cons]
      have hle := countSyncSuccesses_le send rest
      constructor
      · intro h
        omega
      · intro h
        exact absurd (h none (Or.inl rfl)) (by simp)
    | some n =>
      simp only [countSyncSuccesses, List.length_cons, List.mem_cons]
      have hle := countSyncSuccesses_le send rest
      by_cases hp : n.port = 0
      · rw [if_pos hp]
        constructor
        · intro h
          omega
        · intro h
          rcases h (some n) (Or.inl rfl) with ⟨m, hm, hmp, _⟩
          rw [Option.some.inj hm] at hp
          exact absurd hp hmp
      · rw [if_neg hp]
        by_cases hs : send n = true
        · rw [if_pos hs]
          constructor
          · intro h
            rintro r (rfl | hr)
            · exact ⟨n, rfl, hp, hs⟩
            · exact (ih.1 (by omega)) r hr
          · intro h
            have := ih.2 (fun r hr => h r (Or.inr hr))
            omega
        · rw [if_neg hs]
          constructor
          · intro h
            omega
          · intro h
            rcases h (some n) (Or.inl rfl) with ⟨m, hm, _, hms⟩
            rw [Option.some.inj hm] at hs
            exact absurd hms hs

/-- C4 counterexample: with the recommended factor 3, a replica list holding
one null entry and a send oracle that always succeeds, no remote write is
attempted (the null is skipped), so every attempted write succeeded — yet
`replicate_put` returns false, because the skipped slot still counts toward
`required_replications`. -/
theorem replicate_put_attempted_iff_cex :
    ¬ (replicate_put ⟨3, false⟩ "k" [] [none] (fun _ => true) = true ↔
       attemptedWritesAllSucceed ⟨3, false⟩ [none] (fun _ => true)) := by
  intro h
  have hfalse : replicate_put ⟨3, false⟩ "k" [] [none] (fun _ => true) = false := by decide
  have hall : attemptedWritesAllSucceed ⟨3, false⟩ [none] (fun _ => true) := by
    intro r hr n hn _
    rfl
  rw [hfalse] at h
  exact absurd (h.2 hall) (by decide)

/-- C4 (amended): in synchronous mode with a positive replication factor,
`replicate_put` performs up to `min(R-1, |replicas|)` remote writes and
returns success iff each of the first `min(R-1, |replicas|)` replica slots is
non-null with a nonzero port and its remote write succeeded; a skipped (null
or port-0) slot therefore makes the call fail even though it is never
attempted. -/
theorem replicate_put_sync_success_iff (cfg : ReplicationConfig) (key : String)
    (value : List Nat) (replicas : List (Option NodeInfo)) (send : NodeInfo → Bool)
    (hsync : cfg.enable_async_replication = false)
    (hfactor : 1 ≤ cfg.replication_factor) :
    replicate_put cfg key value replicas send = true ↔
      ∀ r ∈ replicas.take (requiredReplications cfg.replication_factor replicas).toNat,
        ∃ n, r = some n ∧ n.port ≠ 0 ∧ send n = true := by
  unfold replicate_put
  rw [if_neg (by rw [hsync]; exact Bool.false_ne_true)]
  simp only [decide_eq_true_eq]
  have h0 : 0 ≤ requiredReplications cfg.replication_factor replicas := by
    unfold requiredReplications
    have : (0 : Int) ≤ (replicas.length : Int) := Int.ofNat_nonneg _
    omega
  have hlen : (replicas.take (requiredReplications cfg.replication_factor replicas).toNat).length
      = (requiredReplications cfg.replication_factor replicas).toNat := by
    rw [List.length_take]
    have : requiredReplications cfg.replication_factor replicas ≤ (replicas.length : Int) :=
      min_le_right _ _
    omega
  rw [← countSyncSuccesses_eq_length_iff, hlen]
  omega

/-- Witness for C4 (amended): factor 3, a single live replica, send succeeds. -/
theorem replicate_put_sync_success_iff_witness :
    (⟨3, false⟩ : ReplicationConfig).enable_async_replication = false ∧
    (1 : Int) ≤ (⟨3, false⟩ : ReplicationConfig).replication_factor ∧
    (replicate_put ⟨3, false⟩ "k" [104] [some ⟨42, "127.0.0.1", 8002⟩]
        (fun _ => true) = true ↔
      ∀ r ∈ ([some ⟨42, "127.0.0.1", 8002⟩] : List (Option NodeInfo)).take
          (requiredReplications (3 : Int) [some ⟨42, "127.0.0.1", 8002⟩]).toNat,
        ∃ n, r = some n ∧ n.port ≠ 0 ∧ (fun (_ : NodeInfo) => true) n = true) :=
  ⟨rfl, by norm_num,
   replicate_put_sync_success_iff ⟨3, false⟩ "k" [104] [some ⟨42, "127.0.0.1", 8002⟩]
     (fun _ => true) rfl (by norm_num)⟩

/-! ## Failure detector (`src/replication.cpp`, class `FailureDetector`)

Per-peer status as updated by `ping_node`, `mark_node_responsive` and
`mark_node_failed`.  The network outcome of a probe is the `is_responsive`
argument; histories of one peer are lists of events. -/

/-- Per-peer record `FailureDetector::NodeStatus` (the `last_seen` timestamp
is real time and not modelled; no embedded property reads it). -/
structure NodeStatus where
  consecutive_failures : Nat
  is_suspected : Bool
  is_failed : Bool
deriving DecidableEq, Repr

/-- Fresh `NodeStatus()`: zero failures, neither suspected nor failed. -/
def initialNodeStatus : NodeStatus := ⟨0, false, false⟩

/-- Status update performed by `FailureDetector::ping_node` after a probe
with outcome `is_responsive` (the threshold is
`FailureConfig::failure_threshold`, default 3; `threshold / 2` is C++
integer division). -/
def pingUpdate (threshold : Nat) (is_responsive : Bool) (s : NodeStatus) : NodeStatus :=
  if is_responsive then ⟨0, false, false⟩
  else
    let cf := s.consecutive_failures + 1
    if threshold ≤ cf then ⟨cf, s.is_suspected, true⟩
    else if threshold / 2 ≤ cf then ⟨cf, true, s.is_failed⟩
    else ⟨cf, s.is_suspected, s.is_failed⟩

/-- `FailureDetector::mark_node_responsive`. -/
def markNodeResponsive (_s : NodeStatus) : NodeStatus := ⟨0, false, false⟩

/-- `FailureDetector::mark_node_failed`: sets the failed flag and forges the
counter to the threshold without any probe having run. -/
def markNodeFailed (threshold : Nat) (s : NodeStatus) : NodeStatus :=
  ⟨threshold, s.is_suspected, true⟩

/-- One event in the life of a peer entry. -/
inductive DetectorEvent where
  | probe (is_responsive : Bool)
  | markResponsive
  | markFailed
deriving DecidableEq, Repr

/-- Dispatch of one event to the corresponding `FailureDetector` method. -/
def detectorStep (threshold : Nat) (s : NodeStatus) : DetectorEvent → NodeStatus
  | .probe r => pingUpdate threshold r s
  | .markResponsive => markNodeResponsive s
  | .markFailed => markNodeFailed threshold s

/-- State of a peer entry after a history of events, from a fresh entry. -/
def runDetector (threshold : Nat) (events : List DetectorEvent) : NodeStatus :=
  events.foldl (detectorStep threshold) initialNodeStatus

/-- Specification-side count of consecutive failed probes since the last
successful probe (non-probe events neither fail nor succeed a probe). -/
def recentFailedProbes (events : List DetectorEvent) : Nat :=
  events.foldl
    (fun acc e =>
      match e with
      | .probe false => acc + 1
      | .probe true => 0
      | _ => acc) 0

/-- Helper: invariant of probe-driven histories — the stored counter bounds
the number of consecutive failed probes from below, and a set failed flag
guarantees the counter reached the threshold. -/
theorem detector_probe_invariant (t : Nat) (events : List DetectorEvent) :
    ∀ (s : NodeStatus) (acc : Nat), DetectorEvent.markFailed ∉ events →
      (s.is_failed = true → t ≤ s.consecutive_failures) →
      s.consecutive_failures ≤ acc →
      (((events.foldl (detectorStep t) s).is_failed = true →
          t ≤ (events.foldl (detectorStep t) s).consecutive_failures) ∧
        (events.foldl (detectorStep t) s).consecutive_failures ≤
          events.foldl
            (fun acc2 e =>
              match e with
              | .probe false => acc2 + 1
              | .probe true => 0
              | _ => acc2) acc) := by
  induction events with
  | nil =>
    intro s acc _ hia hcf
    exact ⟨hia, hcf⟩
  | cons e rest ih =>
    intro s acc hnf hia hcf
    have hnf1 : DetectorEvent.markFailed ∉ rest := fun h => hnf (List.mem_cons_of_mem _ h)
    have hne : e ≠ DetectorEvent.markFailed := fun h => hnf (h ▸ List.mem_cons_self _ _)
    cases e with
    | probe r =>
      cases r with
      | true =>
        simp only [List.foldl_cons, detectorStep, pingUpdate, if_pos rfl]
        exact ih ⟨0, false, false⟩ 0 hnf1 (by simp) (Nat.le_refl 0)
      | false =>
        simp only [List.foldl_cons, detectorStep, pingUpdate]
        rw [if_neg Bool.false_ne_true]
        by_cases h1 : t ≤ s.consecutive_failures + 1
        · rw [if_pos h1]
          exact ih _ (acc + 1) hnf1 (fun _ => h1) (by dsimp only; omega)
        · rw [if_neg h1]
          by_cases h2 : t / 2 ≤ s.consecutive_failures + 1
          · rw [if_pos h2]
            refine ih _ (acc + 1) hnf1 ?_ (by dsimp only; omega)
            intro hf
            exact absurd (hia hf) (by omega)
          · rw [if_neg h2]
            refine ih _ (acc + 1) hnf1 ?_ (by dsimp only; omega)
            intro hf
            exact absurd (hia hf) (by omega)
    | markResponsive =>
      simp only [List.foldl_cons, detectorStep, markNodeResponsive]
      exact ih ⟨0, false, false⟩ acc hnf1 (by simp) (Nat.zero_le acc)
    | markFailed => exact absurd rfl hne

/-- C7 counterexample: a single `mark_node_failed` call (issued by
`contact_node` after one failed connect) reports the peer failed although no
probe of it ever failed, refuting the claim that `is_failed` implies at least
`failure_threshold = 3` consecutive failed probes. -/
theorem is_failed_threshold_cex :
    ¬ ((runDetector 3 [DetectorEvent.markFailed]).is_failed = true →
       3 ≤ recentFailedProbes [DetectorEvent.markFailed]) := by
  decide

/-- C7 (amended): for histories driven only by probes and
`mark_node_responsive`, a set failed flag implies at least
`failure_threshold` consecutive failed probes since the last successful
probe; each failed probe increments the counter, reaching `threshold / 2`
(integer half) sets suspected and reaching the threshold sets failed, and a
successful probe resets the counter and clears both flags.
`mark_node_failed`, by contrast, sets the failed flag and forges the counter
to the threshold without any probe. -/
theorem failure_detector_threshold_spec (t : Nat) (events : List DetectorEvent)
    (hnf : DetectorEvent.markFailed ∉ events) :
    ((runDetector t events).is_failed = true → t ≤ recentFailedProbes events) ∧
    (∀ s : NodeStatus,
      (pingUpdate t false s).consecutive_failures = s.consecutive_failures + 1 ∧
      (t ≤ s.consecutive_failures + 1 → (pingUpdate t false s).is_failed = true) ∧
      (t / 2 ≤ s.consecutive_failures + 1 → ¬ t ≤ s.consecutive_failures + 1 →
        (pingUpdate t false s).is_suspected = true) ∧
      pingUpdate t true s = ⟨0, false, false⟩) ∧
    (∀ s : NodeStatus, (markNodeFailed t s).is_failed = true ∧
      (markNodeFailed t s).consecutive_failures = t) := by
  refine ⟨?_, ?_, ?_⟩
  · intro hfail
    have h := detector_probe_invariant t events initialNodeStatus 0 hnf
      (by simp [initialNodeStatus]) (Nat.le_refl 0)
    exact Nat.le_trans (h.1 hfail) h.2
  · intro s
    refine ⟨?_, ?_, ?_, ?_⟩
    · simp only [pingUpdate, if_neg Bool.false_ne_true]
      split_ifs <;> rfl
    · intro h1
      simp only [pingUpdate, if_neg Bool.false_ne_true, if_pos h1]
    · intro h2 h1
      simp only [pingUpdate, if_neg Bool.false_ne_true, if_neg h1, if_pos h2]
    · simp [pingUpdate]
  · intro s
    exact ⟨rfl, rfl⟩

/-- Witness for C7 (amended): three consecutive failed probes, threshold 3. -/
theorem failure_detector_threshold_spec_witness :
    DetectorEvent.markFailed ∉
        [DetectorEvent.probe false, DetectorEvent.probe false, DetectorEvent.probe false] ∧
    ((runDetector 3 [DetectorEvent.probe false, DetectorEvent.probe false,
        DetectorEvent.probe false]).is_failed = true →
      3 ≤ recentFailedProbes [DetectorEvent.probe false, DetectorEvent.probe false,
        DetectorEvent.probe false]) :=
  ⟨by decide,
   (failure_detector_threshold_spec 3
     [DetectorEvent.probe false, DetectorEvent.probe false, DetectorEvent.probe false]
     (by decide)).1⟩

/-! ## Local store (`src/storage.cpp`, class `Storage`)

The `std::unordered_map<std::string, std::vector<uint8_t>>` is modelled as an
association list with at most one binding per key: `put` replaces in place,
`remove` erases every binding of the key (a map holds at most one). -/

/-- The local key/value store. -/
def Store := List (String × List Nat)

/-- `Storage::get`. -/
def storeGet (s : Store) (k : String) : Option (List Nat) :=
  match s with
  | [] => none
  | (k2, v) :: rest => if k2 = k then some v else storeGet rest k

/-- `Storage::put` — `data[key] = value` replaces any prior binding. -/
def storePut (s : Store) (k : String) (v : List Nat) : Store :=
  match s with
  | [] => [(k, v)]
  | (k2, v2) :: rest => if k2 = k then (k, v) :: rest else (k2, v2) :: storePut rest k v

/-- `Storage::remove` — `data.erase(key)` removes the binding of `k`. -/
def storeRemove (s : Store) (k : String) : Store :=
  s.filter (fun kv => decide (kv.1 ≠ k))

/-- Helper: a put is visible to get. -/
theorem storeGet_storePut_self (s : Store) (k : String) (v : List Nat) :
    storeGet (storePut s k v) k = some v := by
  induction s with
  | nil => simp [storePut, storeGet]
  | cons kv rest ih =>
    rcases kv with ⟨k2, v2⟩
    by_cases h : k2 = k
    · simp [storePut, storeGet, h]
    · simp [storePut, storeGet, h, ih]

/-- Helper: a removed key is absent. -/
theorem storeGet_storeRemove_self (s : Store) (k : String) :
    storeGet (storeRemove s k) k = none := by
  induction s with
  | nil => rfl
  | cons kv rest ih =>
    rcases kv with ⟨k2, v2⟩
    by_cases h : k2 = k
    · simpa [storeRemove, storeGet, h] using ih
    · simpa [storeRemove, storeGet, h] using ih

/-! ## ChordNode data operations (`src/chord.cpp`)

`store_key` and `remove_key` on the primary path, plus the GET/PUT/DELETE
dispatch of `ChordServer::handle_chord_operation` (`src/chord_server.cpp`).
Network interactions are oracles:
  * `send` — outcome of `send_replication_request` at each replica;
  * `replicaGet` — result of `ReplicationManager::get_from_replicas`;
  * `fs` — peer returned by `find_successor` on the non-primary path;
  * `forward` — result of forwarding the client operation to that peer. -/

/-- Response status codes (`StatusCode` in `src/protocol.h`). -/
inductive StatusCode where
  | SUCCESS
  | KEY_NOT_FOUND
  | ERROR
  | REDIRECT
deriving DecidableEq, Repr

/-- `ChordNode::store_key`: on the primary path store locally, replicate
synchronously, and on replication failure remove the local write again and
fail; otherwise succeed.  Off the primary path the request is forwarded
(outcome `forward`; false when no connection could be made). -/
def store_key (pred : Option NodeInfo) (self : NodeInfo) (hash : String → Nat)
    (store : Store) (key : String) (value : List Nat)
    (replicas : List (Option NodeInfo)) (cfg : ReplicationConfig)
    (send : NodeInfo → Bool) (forward : Bool) : Bool × Store :=
  if is_responsible_for_key pred self (hash key) then
    let store1 := storePut store key value
    if replicas ≠ [] then
      if replicate_put cfg key value replicas send then (true, store1)
      else (false, storeRemove store1 key)
    else (true, store1)
  else
    (forward, store)

/-- `ChordNode::remove_key`: on the primary path verify existence locally or,
on a local miss, on the replicas; if nowhere, fail (KEY_NOT_FOUND at the
dispatcher); otherwise remove locally, issue `replicate_delete` whose failure
is only logged, and succeed. -/
def remove_key (pred : Option NodeInfo) (self : NodeInfo) (hash : String → Nat)
    (store : Store) (key : String)
    (replicas : List (Option NodeInfo)) (cfg : ReplicationConfig)
    (sendDel : NodeInfo → Bool) (replicaGet : Option (List Nat))
    (forward : Bool) : Bool × Store :=
  if is_responsible_for_key pred self (hash key) then
    let key_exists := (storeGet store key).isSome
    let key_exists :=
      if key_exists then true
      else if replicas ≠ [] then replicaGet.isSome else false
    if key_exists then
      let store1 := storeRemove store key
      let _unused := if replicas ≠ [] then replicate_delete cfg key replicas sendDel else true
      (true, store1)
    else
      (false, store)
  else
    (forward, store)

/-- Redirect condition of `ChordServer::handle_chord_operation` for data
operations: not responsible and `find_successor` yielded a distinct peer. -/
def shouldRedirect (pred : Option NodeInfo) (self : NodeInfo) (keyId : Nat)
    (fs : Option NodeInfo) : Bool :=
  !is_responsible_for_key pred self keyId &&
    (match fs with | some r => !nodeEq r self | none => false)

/-- PUT branch of `ChordServer::handle_chord_operation`: redirect when not
responsible and a distinct responsible peer is known, else run `store_key`
locally and answer SUCCESS or ERROR. -/
def chordServerPut (pred : Option NodeInfo) (self : NodeInfo) (hash : String → Nat)
    (store : Store) (key : String) (value : List Nat)
    (replicas : List (Option NodeInfo)) (cfg : ReplicationConfig)
    (send : NodeInfo → Bool) (fs : Option NodeInfo) (forward : Bool) :
    StatusCode × Store :=
  if shouldRedirect pred self (hash key) fs then
    (StatusCode.REDIRECT, store)
  else
    let r := store_key pred self hash store key value replicas cfg send forward
    (if r.1 then StatusCode.SUCCESS else StatusCode.ERROR, r.2)

/-- DELETE branch of `ChordServer::handle_chord_operation`. -/
def chordServerDelete (pred : Option NodeInfo) (self : NodeInfo) (hash : String → Nat)
    (store : Store) (key : String)
    (replicas : List (Option NodeInfo)) (cfg : ReplicationConfig)
    (sendDel : NodeInfo → Bool) (replicaGet : Option (List Nat))
    (fs : Option NodeInfo) (forward : Bool) :
    StatusCode × Store :=
  if shouldRedirect pred self (hash key) fs then
    (StatusCode.REDIRECT, store)
  else
    let r := remove_key pred self hash store key replicas cfg sendDel replicaGet forward
    (if r.1 then StatusCode.SUCCESS else StatusCode.KEY_NOT_FOUND, r.2)

/-- C3: on the primary with synchronous replication, a PUT whose replication
fails is rolled back (the key is removed from the local store) and the client
sees ERROR; when replication succeeds or no replicas are needed, the local
store maps the key to the value and the client sees SUCCESS. -/
theorem store_key_sync_replication_spec (pred : Option NodeInfo) (self : NodeInfo)
    (hash : String → Nat) (store : Store) (key : String) (value : List Nat)
    (replicas : List (Option NodeInfo)) (cfg : ReplicationConfig)
    (send : NodeInfo → Bool) (fs : Option NodeInfo) (forward : Bool)
    (hprimary : is_responsible_for_key pred self (hash key) = true) :
    (replicas ≠ [] → replicate_put cfg key value replicas send = false →
      store_key pred self hash store key value replicas cfg send forward =
        (false, storeRemove (storePut store key value) key) ∧
      storeGet (store_key pred self hash store key value replicas cfg send forward).2
        key = none ∧
      (chordServerPut pred self hash store key value replicas cfg send fs forward).1 =
        StatusCode.ERROR) ∧
    ((replicas = [] ∨ replicate_put cfg key value replicas send = true) →
      store_key pred self hash store key value replicas cfg send forward =
        (true, storePut store key value) ∧
      storeGet (store_key pred self hash store key value replicas cfg send forward).2
        key = some value ∧
      (chordServerPut pred self hash store key value replicas cfg send fs forward).1 =
        StatusCode.SUCCESS) := by
  constructor
  · intro hne hfail
    have hsk : store_key pred self hash store key value replicas cfg send forward =
        (false, storeRemove (storePut store key value) key) := by
      unfold store_key
      rw [if_pos hprimary, if_pos hne, hfail]
      simp
    refine ⟨hsk, ?_, ?_⟩
    · rw [hsk]
      exact storeGet_storeRemove_self _ _
    · unfold chordServerPut
      rw [if_neg (by simp [shouldRedirect, hprimary])]
      rw [hsk]
      rfl
  · intro hok
    have hsk : store_key pred self hash store key value replicas cfg send forward =
        (true, storePut store key value) := by
      unfold store_key
      rw [if_pos hprimary]
      rcases hok with h | h
      · rw [if_neg (by simp [h])]
      · by_cases hne : replicas = []
        · rw [if_neg (by simp [hne])]
        · rw [if_pos hne, h]
          simp
    refine ⟨hsk, ?_, ?_⟩
    · rw [hsk]
      exact storeGet_storePut_self _ _ _
    · unfold chordServerPut
      rw [if_neg (by simp [shouldRedirect, hprimary])]
      rw [hsk]
      rfl

/-- Witness for C3: single-node primary (no predecessor), one dead replica in
synchronous mode forces rollback and ERROR; and with no replicas the PUT
succeeds. -/
theorem store_key_sync_replication_spec_witness :
    is_responsible_for_key none ⟨7, "127.0.0.1", 8001⟩ ((fun _ => 3) "k") = true ∧
    (([some ⟨9, "127.0.0.1", 8002⟩] : List (Option NodeInfo)) ≠ [] →
      replicate_put ⟨3, false⟩ "k" [104] [some ⟨9, "127.0.0.1", 8002⟩]
        (fun _ => false) = false →
      store_key none ⟨7, "127.0.0.1", 8001⟩ (fun _ => 3) [] "k" [104]
          [some ⟨9, "127.0.0.1", 8002⟩] ⟨3, false⟩ (fun _ => false) false =
        (false, storeRemove (storePut [] "k" [104]) "k") ∧
      storeGet (store_key none ⟨7, "127.0.0.1", 8001⟩ (fun _ => 3) [] "k" [104]
          [some ⟨9, "127.0.0.1", 8002⟩] ⟨3, false⟩ (fun _ => false) false).2 "k" = none ∧
      (chordServerPut none ⟨7, "127.0.0.1", 8001⟩ (fun _ => 3) [] "k" [104]
          [some ⟨9, "127.0.0.1", 8002⟩] ⟨3, false⟩ (fun _ => false) none false).1 =
        StatusCode.ERROR) := by
  refine ⟨rfl, ?_⟩
  have h := store_key_sync_replication_spec none ⟨7, "127.0.0.1", 8001⟩ (fun _ => 3)
    [] "k" [104] [some ⟨9, "127.0.0.1", 8002⟩] ⟨3, false⟩ (fun _ => false) none false rfl
  exact h.1

/-- C5: DELETE on the primary returns KEY_NOT_FOUND when the key exists
neither locally nor on any replica; otherwise it removes the key locally,
invokes `replicate_delete`, and the client sees SUCCESS regardless of the
outcome of the replicated delete. -/
theorem remove_key_delete_spec (pred : Option NodeInfo) (self : NodeInfo)
    (hash : String → Nat) (store : Store) (key : String)
    (replicas : List (Option NodeInfo)) (cfg : ReplicationConfig)
    (sendDel : NodeInfo → Bool) (replicaGet : Option (List Nat))
    (fs : Option NodeInfo) (forward : Bool)
    (hprimary : is_responsible_for_key pred self (hash key) = true) :
    (storeGet store key = none → (replicas = [] ∨ replicaGet = none) →
      remove_key pred self hash store key replicas cfg sendDel replicaGet forward =
        (false, store) ∧
      (chordServerDelete pred self hash store key replicas cfg sendDel replicaGet
          fs forward).1 = StatusCode.KEY_NOT_FOUND) ∧
    ((storeGet store key).isSome = true ∨ (replicas ≠ [] ∧ replicaGet.isSome = true) →
      remove_key pred self hash store key replicas cfg sendDel replicaGet forward =
        (true, storeRemove store key) ∧
      storeGet (remove_key pred self hash store key replicas cfg sendDel replicaGet
          forward).2 key = none ∧
      (chordServerDelete pred self hash store key replicas cfg sendDel replicaGet
          fs forward).1 = StatusCode.SUCCESS) := by
  constructor
  · intro hnone hrep
    have hrk : remove_key pred self hash store key replicas cfg sendDel replicaGet
        forward = (false, store) := by
      unfold remove_key
      rw [if_pos hprimary]
      rcases hrep with h | h
      · simp [hnone, h]
      · simp [hnone, h]
    refine ⟨hrk, ?_⟩
    unfold chordServerDelete
    rw [if_neg (by simp [shouldRedirect, hprimary])]
    rw [hrk]
    rfl
  · intro hex
    have hrk : remove_key pred self hash store key replicas cfg sendDel replicaGet
        forward = (true, storeRemove store key) := by
      unfold remove_key
      rw [if_pos hprimary]
      rcases hex with h | ⟨h1, h2⟩
      · simp [h]
      · by_cases hloc : (storeGet store key).isSome = true
        · simp [hloc]
        · simp [Bool.not_eq_true] at hloc
          simp [hloc, h1, h2]
    refine ⟨hrk, ?_, ?_⟩
    · rw [hrk]
      exact storeGet_storeRemove_self _ _
    · unfold chordServerDelete
      rw [if_neg (by simp [shouldRedirect, hprimary])]
      rw [hrk]
      rfl

/-- Witness for C5: primary with one replica; the key exists only on the
replica, so DELETE succeeds even though the replicated delete fails. -/
theorem remove_key_delete_spec_witness :
    is_responsible_for_key none ⟨7, "127.0.0.1", 8001⟩ ((fun _ => 3) "k") = true ∧
    ((storeGet [] "k").isSome = true ∨
      (([some ⟨9, "127.0.0.1", 8002⟩] : List (Option NodeInfo)) ≠ [] ∧
        (some [104] : Option (List Nat)).isSome = true) →
      remove_key none ⟨7, "127.0.0.1", 8001⟩ (fun _ => 3) [] "k"
          [some ⟨9, "127.0.0.1", 8002⟩] ⟨3, false⟩ (fun _ => false) (some [104]) false =
        (true, storeRemove [] "k") ∧
      storeGet (remove_key none ⟨7, "127.0.0.1", 8001⟩ (fun _ => 3) [] "k"
          [some ⟨9, "127.0.0.1", 8002⟩] ⟨3, false⟩ (fun _ => false) (some [104])
          false).2 "k" = none ∧
      (chordServerDelete none ⟨7, "127.0.0.1", 8001⟩ (fun _ => 3) [] "k"
          [some ⟨9, "127.0.0.1", 8002⟩] ⟨3, false⟩ (fun _ => false) (some [104])
          none false).1 = StatusCode.SUCCESS) := by
  refine ⟨rfl, ?_⟩
  have h := remove_key_delete_spec none ⟨7, "127.0.0.1", 8001⟩ (fun _ => 3) [] "k"
    [some ⟨9, "127.0.0.1", 8002⟩] ⟨3, false⟩ (fun _ => false) (some [104]) none false rfl
  exact h.2

/-! ## Notify and key transfer (`src/chord.cpp`)

`ChordNode::notify` updates the predecessor under the routing lock and then,
outside the lock, calls `ChordNode::transfer_keys_to_node` for the new
predecessor.  `transfer_keys_to_node` filters the local store with a
predicate that reads the current `predecessor` member — which `notify` has
already updated to the new peer — and its loop body only removes each
selected key locally; the source comments that a real implementation would
send the key/value pair to the target, but no send happens. -/

/-- `ChordNode::transfer_keys_to_node`.  The second component collects the
key/value pairs actually pushed to the target over the network: the loop body
contains no send, so it is empty. -/
def transfer_keys_to_node (pred : Option NodeInfo) (self target : NodeInfo)
    (hash : String → Nat) (store : Store) : Store × List (String × List Nat) :=
  if nodeEq target self then (store, [])
  else
    let keys_to_transfer := store.filter (fun kv =>
      match pred with
      | some p => in_range (hash kv.1) p.id target.id true
      | none => false)
    (keys_to_transfer.foldl (fun st kv => storeRemove st kv.1) store, [])

/-- `ChordNode::notify`: adopt `node` as predecessor when there is none or
`node.id` lies in `(predecessor.id, self.id)` exclusive; on a change (and
when the remembered old predecessor differs from `node`) run the key
transfer, which sees the already-updated predecessor. -/
def notify (pred : Option NodeInfo) (self node : NodeInfo) (hash : String → Nat)
    (store : Store) : Option NodeInfo × Store × List (String × List Nat) :=
  if nodeEq node self then (pred, store, [])
  else
    let changed :=
      match pred with
      | none => true
      | some p => in_range node.id p.id self.id false
    if changed then
      if pred = some node then (some node, store, [])
      else
        let r := transfer_keys_to_node (some node) self node hash store
        (some node, r.1, r.2)
    else (pred, store, [])

/-- Concrete key-id map for the C6 failing input: key "a" hashes to 30,
key "b" to 50. -/
def demoHash : String → Nat := fun k => if k = "a" then 30 else if k = "b" then 50 else 0

/-- C6 failing input: self.id = 100, old predecessor id 10, notify of peer
p with id 50, local store holding "a" (id 30) and "b" (id 50), both in
`(old_predecessor.id, p.id] = (10, 50]`.  The claim requires both entries to
be pushed to p and removed only after a successful push.  The code instead
pushes nothing, silently deletes "b" (its id equals p.id, the only ids the
collapsed interval `(p.id, p.id]` retains), and keeps "a". -/
theorem notify_transfer_bug_at_failing_input :
    notify (some ⟨10, "127.0.0.1", 8003⟩) ⟨100, "127.0.0.1", 8001⟩
        ⟨50, "127.0.0.1", 8002⟩ demoHash [("a", [1]), ("b", [2])] =
      (some ⟨50, "127.0.0.1", 8002⟩, [("a", [1])], []) ∧
    in_range (demoHash "a") 10 50 true = true ∧
    in_range (demoHash "b") 10 50 true = true :=
  ⟨rfl, rfl, rfl⟩

/-! ## Ring routing state (`src/chord.cpp`)

`ChordNode`'s routing members and the operations that mutate them:
constructor, `create`, `join`, `leave`, `stabilize`, `notify` (routing part),
`fix_fingers`, `handle_node_failure`, with `find_successor` and
`closest_preceding_node` embedded for the lookup they perform.  Remote calls
(`contact_node`) are an oracle returning the contacted peer or `none` on a
connection failure. -/

/-- Routing state of a `ChordNode` (`SUCCESSOR_LIST_SIZE = 8`,
`FINGER_TABLE_SIZE = 160` from `src/chord.h`). -/
structure RingState where
  self_info : NodeInfo
  predecessor : Option NodeInfo
  successor_list : List (Option NodeInfo)
  finger_table : List (Option NodeInfo)

/-- State established by the `ChordNode` constructor: no predecessor, all
successor and finger slots point at self. -/
def initialRingState (self : NodeInfo) : RingState :=
  ⟨self, none, List.replicate 8 (some self), List.replicate 160 (some self)⟩

/-- `successor_list[0]`. -/
def succ0 (s : RingState) : Option NodeInfo := s.successor_list.getD 0 none

/-- `ChordNode::create`: reset to the single-node ring. -/
def ringCreate (s : RingState) : RingState :=
  { s with predecessor := none,
           successor_list := List.replicate 8 (some s.self_info),
           finger_table := List.replicate 160 (some s.self_info) }

/-- `ChordNode::join`: a null or self bootstrap degenerates to `create`;
otherwise clear the predecessor, point `successor_list[0]` at the bootstrap
peer and initialize every finger to that successor. -/
def ringJoin (s : RingState) (existing : Option NodeInfo) : RingState :=
  match existing with
  | none => ringCreate s
  | some e =>
    if nodeEq e s.self_info then ringCreate s
    else
      let s1 := { s with predecessor := none,
                         successor_list := s.successor_list.set 0 (some e) }
      { s1 with finger_table := List.replicate 160 (succ0 s1) }

/-- `ChordNode::leave`: after the key handoff (which only touches the local
store), reset to the single-node ring. -/
def ringLeave (s : RingState) : RingState :=
  { s with predecessor := none,
           successor_list := List.replicate 8 (some s.self_info),
           finger_table := List.replicate 160 (some s.self_info) }

/-- `ChordNode::closest_preceding_node`: scan the finger table from index 159
down to 0 for a finger distinct from self lying in `(self.id, id)`; fall back
to self. -/
def closest_preceding_node (s : RingState) (id : Nat) : NodeInfo :=
  match s.finger_table.reverse.find? (fun f =>
    match f with
    | some fn => !nodeEq fn s.self_info && in_range fn.id s.self_info.id id false
    | none => false) with
  | some (some fn) => fn
  | _ => s.self_info

/-- `ChordNode::find_successor`: answer self when responsible; else the
immediate successor when the id falls in `(self.id, successor.id]`; else
forward to the closest preceding finger through the `contact` oracle (which
yields `none` on connection failure); with no usable finger fall back to the
immediate successor. -/
def find_successor (s : RingState) (id : Nat)
    (contact : NodeInfo → Option NodeInfo) : Option NodeInfo :=
  if is_responsible_for_key s.predecessor s.self_info id then some s.self_info
  else
    let successor := succ0 s
    if (match successor with
        | some sc => in_range id s.self_info.id sc.id true
        | none => false) then successor
    else
      let closest := closest_preceding_node s id
      if !nodeEq closest s.self_info then contact closest
      else successor

/-- `ChordNode::stabilize`: with a real, non-self successor, ask it for its
predecessor `x` (oracle) and adopt `x` as `successor_list[0]` when it lies
strictly between self and the successor. -/
def ringStabilize (s : RingState) (x : Option NodeInfo) : RingState :=
  match succ0 s with
  | none => s
  | some succ =>
    if nodeEq succ s.self_info then s
    else
      match x with
      | none => s
      | some xn =>
        if !nodeEq xn s.self_info && in_range xn.id s.self_info.id succ.id false then
          { s with successor_list := s.successor_list.set 0 (some xn) }
        else s

/-- Routing effect of `ChordNode::notify` (the store transfer is modelled
with `notify` above and does not touch the routing state). -/
def ringNotify (s : RingState) (node : NodeInfo) : RingState :=
  if nodeEq node s.self_info then s
  else
    let changed :=
      match s.predecessor with
      | none => true
      | some p => in_range node.id p.id s.self_info.id false
    if changed then { s with predecessor := some node } else s

/-- `add_power_of_two` from `src/hash.cpp`: add `2 ^ power` modulo `2 ^ 160`
(the carry drops off the top byte); an out-of-range power returns the base. -/
def add_power_of_two (base : Nat) (power : Nat) : Nat :=
  if 160 ≤ power then base else (base + 2 ^ power) % ID_SPACE

/-- `ChordNode::get_finger_start`. -/
def get_finger_start (s : RingState) (index : Nat) : Nat :=
  if 160 ≤ index then s.self_info.id else add_power_of_two s.self_info.id index

/-- `ChordNode::fix_fingers`: look up the start of the rotated finger slot
and store the (non-null) result into that slot. -/
def ringFixFinger (s : RingState) (index : Nat)
    (contact : NodeInfo → Option NodeInfo) : RingState :=
  match find_successor s (get_finger_start s index) contact with
  | some r => { s with finger_table := s.finger_table.set index (some r) }
  | none => s

/-- Remove the first successor slot matching the predicate, mirroring the
shift loop of `handle_node_failure`; `none` when no slot matches. -/
def removeFirstMatch (p : Option NodeInfo → Bool) :
    List (Option NodeInfo) → Option (List (Option NodeInfo))
  | [] => none
  | e :: rest =>
    if p e then some rest
    else (removeFirstMatch p rest).map (fun l => e :: l)

/-- `ChordNode::handle_node_failure`: drop the failed peer from the successor
list (shifting survivors left, the last slot keeping its old value until it
is overwritten by a fresh `find_successor(self.id)`), clear a failed
predecessor, and rewrite fingers pointing at the failed peer to the current
`successor_list[0]`. -/
def handle_node_failure (s : RingState) (failed : NodeInfo)
    (contact : NodeInfo → Option NodeInfo) : RingState :=
  let sl := s.successor_list
  let s1 :=
    match removeFirstMatch (fun e =>
        match e with
        | some n => nodeEq n failed
        | none => false) sl with
    | some removed =>
      let afterShift := removed ++ sl.drop (sl.length - 1)
      let sShift := { s with successor_list := afterShift }
      let newSucc := find_successor sShift s.self_info.id contact
      { sShift with successor_list := afterShift.set (afterShift.length - 1) newSucc }
    | none => s
  let s2 := { s1 with predecessor :=
    match s1.predecessor with
    | some p => if nodeEq p failed then none else some p
    | none => none }
  { s2 with finger_table := s2.finger_table.map (fun f =>
      match f with
      | some fn => if nodeEq fn failed then succ0 s2 else some fn
      | none => none) }

/-- One ring operation together with the outcomes of its remote calls. -/
inductive RingEvent where
  | create
  | join (existing : Option NodeInfo)
  | leave
  | stabilize (x : Option NodeInfo)
  | notify (node : NodeInfo)
  | fixFinger (index : Nat) (contact : NodeInfo → Option NodeInfo)
  | nodeFailure (failed : NodeInfo) (contact : NodeInfo → Option NodeInfo)

/-- Dispatch of one ring operation. -/
def ringStep (s : RingState) : RingEvent → RingState
  | .create => ringCreate s
  | .join e => ringJoin s e
  | .leave => ringLeave s
  | .stabilize x => ringStabilize s x
  | .notify n => ringNotify s n
  | .fixFinger i contact => ringFixFinger s i contact
  | .nodeFailure f contact => handle_node_failure s f contact

/-- State after a sequence of ring operations. -/
def runRing (s : RingState) (events : List RingEvent) : RingState :=
  events.foldl ringStep s

/-- Successor-list health: every slot non-null, list length 8. -/
def SuccInvariant (s : RingState) : Prop :=
  (∀ e ∈ s.successor_list, e.isSome = true) ∧ s.successor_list.length = 8

/-- Helper: a node is always responsible for its own identifier, whatever the
predecessor is. -/
theorem is_responsible_self (pred : Option NodeInfo) (self : NodeInfo) :
    is_responsible_for_key pred self self.id = true := by
  cases pred with
  | none => rfl
  | some p =>
    show in_range self.id p.id self.id true = true
    rw [in_range_eq_prop]
    split_ifs <;> simp_all

/-- Helper: `find_successor(self.id)` short-circuits to self, regardless of
the rest of the state and of remote outcomes. -/
theorem find_successor_self (s : RingState) (contact : NodeInfo → Option NodeInfo) :
    find_successor s s.self_info.id contact = some s.self_info := by
  unfold find_successor
  rw [if_pos (is_responsible_self _ _)]

/-- Helper: a successful `removeFirstMatch` yields one element fewer. -/
theorem removeFirstMatch_length (p : Option NodeInfo → Bool) :
    ∀ (l removed : List (Option NodeInfo)), removeFirstMatch p l = some removed →
      removed.length + 1 = l.length := by
  intro l
  induction l with
  | nil => intro removed h; exact absurd h (by simp [removeFirstMatch])
  | cons e rest ih =>
    intro removed h
    unfold removeFirstMatch at h
    by_cases hp : p e = true
    · rw [if_pos hp] at h
      rw [← Option.some.inj h]
      simp
    · rw [if_neg hp] at h
      rcases Option.map_eq_some'.mp h with ⟨l2, hl2, hrem⟩
      have hih := ih l2 hl2
      rw [← hrem]
      simp only [List.length_cons]
      omega


/-- Helper: `removeFirstMatch` keeps only elements of the original list. -/
theorem removeFirstMatch_mem (p : Option NodeInfo → Bool) :
    ∀ (l removed : List (Option NodeInfo)), removeFirstMatch p l = some removed →
      ∀ e ∈ removed, e ∈ l := by
  intro l
  induction l with
  | nil => intro removed h; exact absurd h (by simp [removeFirstMatch])
  | cons e rest ih =>
    intro removed h x hx
    unfold removeFirstMatch at h
    by_cases hp : p e = true
    · rw [if_pos hp] at h
      rw [← Option.some.inj h] at hx
      exact List.mem_cons_of_mem _ hx
    · rw [if_neg hp] at h
      rcases Option.map_eq_some'.mp h with ⟨l2, hl2, hrem⟩
      rw [← hrem] at hx
      rcases List.mem_cons.mp hx with rfl | hx2
      · exact List.mem_cons_self _ _
      · exact List.mem_cons_of_mem _ (ih l2 hl2 x hx2)

/-- Helper: the replicate-to-self reset satisfies the invariant. -/
theorem succInvariant_replicate_self (s : RingState) (self : NodeInfo)
    (h : s.successor_list = List.replicate 8 (some self)) : SuccInvariant s := by
  constructor
  · intro e he
    rw [h] at he
    rw [List.eq_of_mem_replicate he]
    rfl
  · rw [h]
    rfl

/-- Helper: setting one slot to a non-null peer preserves the invariant. -/
theorem succInvariant_set (s : RingState) (l : List (Option NodeInfo)) (i : Nat)
    (v : Option NodeInfo) (hs : s.successor_list = l.set i v)
    (hl : ∀ e ∈ l, e.isSome = true) (hlen : l.length = 8)
    (hv : v.isSome = true) : SuccInvariant s := by
  constructor
  · intro e he
    rw [hs] at he
    rcases List.mem_or_eq_of_mem_set he with h1 | rfl
    · exact hl e h1
    · exact hv
  · rw [hs, List.length_set, hlen]

/-- Helper: every ring operation preserves the successor-list invariant. -/
theorem ringStep_succInvariant (s : RingState) (ev : RingEvent)
    (h : SuccInvariant s) : SuccInvariant (ringStep s ev) := by
  cases ev with
  | create => exact succInvariant_replicate_self _ s.self_info rfl
  | leave => exact succInvariant_replicate_self _ s.self_info rfl
  | join e =>
    cases e with
    | none => exact succInvariant_replicate_self _ s.self_info rfl
    | some b =>
      show SuccInvariant (ringJoin s (some b))
      unfold ringJoin
      dsimp only
      by_cases hb : nodeEq b s.self_info = true
      · rw [if_pos hb]
        exact succInvariant_replicate_self _ s.self_info rfl
      · rw [if_neg hb]
        exact succInvariant_set _ s.successor_list 0 (some b) rfl h.1 h.2 rfl
  | stabilize x =>
    show SuccInvariant (ringStabilize s x)
    unfold ringStabilize
    cases hs0 : succ0 s with
    | none => exact h
    | some succ =>
      dsimp only
      by_cases hself : nodeEq succ s.self_info = true
      · rw [if_pos hself]
        exact h
      · rw [if_neg hself]
        cases x with
        | none => exact h
        | some xn =>
          dsimp only
          by_cases hcond : (!nodeEq xn s.self_info &&
              in_range xn.id s.self_info.id succ.id false) = true
          · rw [if_pos hcond]
            exact succInvariant_set _ s.successor_list 0 (some xn) rfl h.1 h.2 rfl
          · rw [if_neg hcond]
            exact h
  | notify n =>
    show SuccInvariant (ringNotify s n)
    have hsl : (ringNotify s n).successor_list = s.successor_list := by
      unfold ringNotify
      dsimp only
      split_ifs <;> rfl
    exact ⟨fun e he => h.1 e (hsl ▸ he), by rw [hsl]; exact h.2⟩
  | fixFinger i contact =>
    show SuccInvariant (ringFixFinger s i contact)
    unfold ringFixFinger
    cases find_successor s (get_finger_start s i) contact with
    | none => exact h
    | some r => exact h
  | nodeFailure f contact =>
    show SuccInvariant (handle_node_failure s f contact)
    unfold handle_node_failure
    dsimp only
    cases hrm : removeFirstMatch (fun e =>
        match e with
        | some n => nodeEq n f
        | none => false) s.successor_list with
    | none => exact h
    | some removed =>
      have hlen : removed.length + 1 = s.successor_list.length :=
        removeFirstMatch_length _ _ _ hrm
      have hmem : ∀ e ∈ removed, e ∈ s.successor_list :=
        removeFirstMatch_mem _ _ _ hrm
      have hafter : ∀ e ∈ removed ++ s.successor_list.drop (s.successor_list.length - 1),
          e.isSome = true := by
        intro e he
        rcases List.mem_append.mp he with h1 | h1
        · exact h.1 e (hmem e h1)
        · exact h.1 e (List.mem_of_mem_drop h1)
      have hl8 : s.successor_list.length = 8 := h.2
      have hafterlen :
          (removed ++ s.successor_list.drop (s.successor_list.length - 1)).length = 8 := by
        rw [List.length_append, List.length_drop]
        omega
      have hfs := find_successor_self
        { s with successor_list :=
            removed ++ s.successor_list.drop (s.successor_list.length - 1) } contact
      constructor
      · intro e he
        dsimp only at he
        rcases List.mem_or_eq_of_mem_set he with h1 | rfl
        · exact hafter e h1
        · rw [hfs]
          rfl
      · dsimp only
        rw [List.length_set]
        exact hafterlen

/-- Helper: the invariant is preserved along any operation sequence. -/
theorem runRing_succInvariant (events : List RingEvent) :
    ∀ s : RingState, SuccInvariant s → SuccInvariant (runRing s events) := by
  induction events with
  | nil => intro s h; exact h
  | cons ev rest ih =>
    intro s h
    exact ih (ringStep s ev) (ringStep_succInvariant s ev h)

/-- Helper: under the invariant the head successor slot is non-null. -/
theorem succ0_isSome_of_invariant (s : RingState) (h : SuccInvariant s) :
    (succ0 s).isSome = true := by
  obtain ⟨h1, h2⟩ := h
  rcases hsl : s.successor_list with _ | ⟨e, rest⟩
  · rw [hsl] at h2
    simp at h2
  · have he : succ0 s = e := by
      unfold succ0
      rw [hsl]
      rfl
    rw [he]
    exact h1 e (by rw [hsl]; exact List.mem_cons_self _ _)

/-- C8: starting from the constructor state followed by `create()` (a null or
self bootstrap) or `join()` (any bootstrap), and after any sequence of ring
operations — leave, stabilize, notify, fix-fingers, handle_node_failure,
further create/join — `successor_list[0]` is never null and the list keeps
its 8 slots; and immediately after `create()` the single-node ring has
`successor_list[0] = self`. -/
theorem successor_list_head_never_null (self : NodeInfo) (boot : Option NodeInfo)
    (events : List RingEvent) :
    (succ0 (runRing (ringJoin (initialRingState self) boot) events)).isSome = true ∧
    (runRing (ringJoin (initialRingState self) boot) events).successor_list.length = 8 ∧
    succ0 (ringCreate (initialRingState self)) = some self ∧
    succ0 (ringJoin (initialRingState self) none) = some self := by
  have hinit : SuccInvariant (initialRingState self) :=
    succInvariant_replicate_self _ self rfl
  have hjoin : SuccInvariant (ringJoin (initialRingState self) boot) :=
    ringStep_succInvariant (initialRingState self) (RingEvent.join boot) hinit
  have hrun := runRing_succInvariant events _ hjoin
  exact ⟨succ0_isSome_of_invariant _ hrun, hrun.2, rfl, rfl⟩

end FunnelKVS
